import Mathlib

/-!
Verification of the EBS storage backend of volplugin: a shallow embedding of
the driver's pure logic and of its control flow over the remote AWS EBS API.
Remote calls (EC2 DescribeVolumes, DescribeTags, CreateVolume, AttachVolume,
unix mount and unmount syscalls, ...) are modelled by their results, supplied
to each embedded function as explicit arguments: one argument per call site,
or a list of results for a call made once per iteration of a polling loop.
Strings from the Go source keep their spelling; Go `(value, err)` pairs become
`Except`, with the convention of the source that the value is absent (a nil
pointer in Go) exactly when the error is non-nil.
-/

/-- Errors of the driver. Each constructor stands for one `errored.Errorf` /
`errors.New` site of the source (the message's fixed text identifies the
site; a payload records the data interpolated into the message), `aws` stands
for an `awserr.Error` carrying a remote API error code, and `generic` for any
other opaque error value. -/
inductive EbsErr where
  | minSize
  | wholeGigabytes
  | missingRegion
  | invalidVolumeNameTwoParts
  | invalidPolicyNameDot
  | invalidVolumeNameSlash
  | mountFailed
  | expectedOneResponse (got : Nat)
  | noFreeDevice
  | aws (code : String)
  | generic
  | storeTagFailed (e : EbsErr)
  | instanceInfoFailed (e : EbsErr)
  | attachFailed (e : EbsErr)
deriving DecidableEq

instance {ε α : Type} [DecidableEq ε] [DecidableEq α] : DecidableEq (Except ε α) := fun a b =>
  match a, b with
  | .ok x, .ok y =>
      if h : x = y then .isTrue (by rw [h]) else .isFalse (fun hc => h (Except.ok.inj hc))
  | .ok _, .error _ => .isFalse (fun hc => Except.noConfusion hc)
  | .error _, .ok _ => .isFalse (fun hc => Except.noConfusion hc)
  | .error x, .error y =>
      if h : x = y then .isTrue (by rw [h]) else .isFalse (fun hc => h (Except.error.inj hc))

/-- `gigabyteAsBytes` of ebs.go: the minimum size is one gigabyte. -/
def gigabyteAsBytes : Nat := 1024 * 1024 * 1024

/-- `getVolumeSizeInGB` of ebs.go. The Go argument is a `uint64`, embedded as
`Nat`; the `int64` result cannot overflow for any `uint64` input. -/
def getVolumeSizeInGB (size : Nat) : Except EbsErr Nat :=
  if size < gigabyteAsBytes then .error .minSize
  else if size % gigabyteAsBytes ≠ 0 then .error .wholeGigabytes
  else .ok (size / gigabyteAsBytes)

/-- One `ec2.TagDescription` as the driver reads it: the tagged volume's
remote id (`ResourceId`) and the tag's value (the hierarchical volume name). -/
structure TagDescription where
  resourceId : String
  value : String
deriving DecidableEq

/-- The fixed `MaxResults` the driver puts in every `DescribeTagsInput` it
builds (`getVolumesWithFilters` of the AWS helper file). -/
def describeTagsMaxResults : Nat := 6

/-- Modelled from the spec: the remote `DescribeTags` call returns the first
page of matching tag descriptions, holding at most `MaxResults` entries. The
remote service is an external collaborator; `matching` is the full list of
tag descriptions matching the request's filters, in the service's order. -/
def describeTagsPage (matching : List TagDescription) : List TagDescription :=
  matching.take describeTagsMaxResults

/-- `getVolumesWithFilters` of the AWS helper file: issues `DescribeTags`
with `MaxResults: 6` and returns the response's tags. -/
def getVolumesWithFilters (matching : List TagDescription) : List TagDescription :=
  describeTagsPage matching

/-- `getVolumeWithTag` of the AWS helper file, applied to the result of its
`getVolumesWithFilters` call (`queryRes`; `.error` when the remote query
fails): demands exactly one match and returns `volumes[0]`. -/
def getVolumeWithTag (queryRes : Except EbsErr (List TagDescription)) :
    Except EbsErr TagDescription :=
  match queryRes with
  | .error e => .error e
  | .ok volumes =>
    if h : volumes.length = 1 then .ok (volumes.get ⟨0, by omega⟩)
    else .error (.expectedOneResponse volumes.length)

/-- `getVolumeWithName` of the AWS helper file: resolves a hierarchical name
to the remote volume id through `getVolumeWithTag`, returning the matched
tag description's `ResourceId`. -/
def getVolumeWithName (queryRes : Except EbsErr (List TagDescription)) :
    Except EbsErr String :=
  match getVolumeWithTag queryRes with
  | .error e => .error e
  | .ok td => .ok td.resourceId

/-- `Driver.List` of ebs.go: `listVolumes` (all tags with the contiv key,
through `getVolumesWithFilters`) mapped to the tag values, which are the
volume names. `store` is the remote state: every tag description carrying the
contiv volume-name key, in the service's order. -/
def ebsList (store : List TagDescription) : List String :=
  (getVolumesWithFilters store).map TagDescription.value

/-- `Driver.Exists` of ebs.go: lists and scans for a name match. -/
def ebsExists (store : List TagDescription) (name : String) : Bool :=
  (ebsList store).contains name

/-- The device-letter namespace of `findFreeBlockDevice`: the loop
`for dev = 'a'; dev < 'z'; dev++` visits the 25 letters a through y. -/
def deviceLetters : List Char := (List.range 25).map (fun i => Char.ofNat (97 + i))

/-- The fixed device-path stem of `findFreeBlockDevice`. -/
def xvdPrefix : String := "/dev/xvd"

/-- The loop body of `findFreeBlockDevice`: try each remaining letter in
order, skipping a candidate exactly when some mapping's `DeviceName` equals
it (the inner `usable` scan). -/
def findFreeFrom (mappings : List String) : List Char → Except EbsErr String
  | [] => .error .noFreeDevice
  | c :: cs =>
    let blockDev := xvdPrefix.push c
    if mappings.contains blockDev then findFreeFrom mappings cs
    else .ok blockDev

/-- `findFreeBlockDevice` of the metadata helper file: first device path
`/dev/xvd<letter>`, letter from a to y in order, not present in the instance's
block-device mappings (given here as their `DeviceName` strings). -/
def findFreeBlockDevice (mappings : List String) : Except EbsErr String :=
  findFreeFrom mappings deviceLetters

/-- The candidate device paths `findFreeBlockDevice` iterates, in order. -/
def ebsDeviceCandidates : List String := deviceLetters.map (fun c => xvdPrefix.push c)

/-- Results of `createVolumeSynchronously` and of `setVolumeNameTag` as
`Driver.Create` observes them. -/
structure CreateEnv where
  createVolumeSyncRes : Except EbsErr String
  tagRes : Option EbsErr
deriving DecidableEq

/-- The remote API operations `Driver.Create` can issue, in order: the volume
creation (the first remote call of `createVolumeSynchronously`) and the
name tagging (`CreateTags`). -/
inductive RemoteOp where
  | createVolume
  | createTags
deriving DecidableEq

/-- `Driver.Create` of ebs.go: size validation, then `createVolumeSynchronously`,
then `setVolumeNameTag`; alongside the result, the list of remote operations
the run issued (client construction via `ec2.New` makes no remote call). -/
def DriverCreate (size : Nat) (env : CreateEnv) : Option EbsErr × List RemoteOp :=
  match getVolumeSizeInGB size with
  | .error e => (some e, [])
  | .ok _ =>
    match env.createVolumeSyncRes with
    | .error e => (some e, [.createVolume])
    | .ok _ =>
      match env.tagRes with
      | some e => (some (.storeTagFailed e), [.createVolume, .createTags])
      | none => (none, [.createVolume, .createTags])

/-- `Driver.Validate` of ebs.go: the external `do.Validate()` (storage
framework code outside this repository, its result passed in as
`extValidateRes`), then the size check, then the region check. It performs
no remote call: every branch is computed from the arguments alone. -/
def DriverValidate (extValidateRes : Option EbsErr) (size : Nat) (region : String) :
    Option EbsErr :=
  match extValidateRes with
  | some e => some e
  | none =>
    match getVolumeSizeInGB size with
    | .error e => some e
    | .ok _ => if region = "" then some .missingRegion else none

/-- `Driver.Format` of ebs.go over the results of its remote and local calls:
instance-id lookup, name resolution, instance info, free-device allocation,
synchronized attach, the mkfs command, and the final synchronized detach.
On the mkfs-success path the detach result (`detachRes`) is only logged
(`log.Errorf`), never returned, so it does not appear in the body; likewise
the compensating detach after a failed mkfs is only logged and the mkfs
error is returned. -/
def DriverFormat (instanceIDRes : Except EbsErr String) (volumeIDRes : Except EbsErr String)
    (instanceInfoRes : Except EbsErr (List String)) (attachRes : Except EbsErr Unit)
    (mkfsRes : Option EbsErr) (detachRes : Except EbsErr Unit) : Option EbsErr :=
  match instanceIDRes with
  | .error e => some e
  | .ok _ =>
  match volumeIDRes with
  | .error e => some e
  | .ok _ =>
  match instanceInfoRes with
  | .error e => some (.instanceInfoFailed e)
  | .ok mappings =>
  match findFreeBlockDevice mappings with
  | .error e => some e
  | .ok _ =>
  match attachRes with
  | .error e => some (.attachFailed e)
  | .ok _ =>
  match mkfsRes with
  | some e => some e
  | none => none

/-- Outcome of `deleteVolumeSynchronously`: the Go function returns an error
(nil on success, `errTimeout` on timeout, or a propagated call error). -/
inductive DeleteOutcome where
  | done
  | failed (e : EbsErr)
  | timeout
deriving DecidableEq

/-- The `awserr.Error` type assertion and code comparison of
`deleteVolumeSynchronously`: a non-aws error fails the assertion. -/
def isInvalidVolumeNotFound : EbsErr → Bool
  | .aws code => code = "InvalidVolume.NotFound"
  | _ => false

/-- Whether a poll-loop `getVolumeInfo` result is an error with the AWS code
`InvalidVolume.NotFound`. -/
def isNotFoundRes : Except EbsErr String → Bool
  | .error e => isInvalidVolumeNotFound e
  | .ok _ => false

/-- The poll loop of `deleteVolumeSynchronously`: each entry is one tick's
`getVolumeInfo(volume, svc)` result carrying the volume's state. A successful
query makes the loop continue (the state is not inspected there); an error
ends the loop with nil exactly when it is an aws error with code
`InvalidVolume.NotFound`, and otherwise the loop continues. An exhausted
list stands for the absolute timeout firing. -/
def deletePollLoop : List (Except EbsErr String) → DeleteOutcome
  | [] => .timeout
  | q :: rest =>
    match q with
    | .ok _ => deletePollLoop rest
    | .error e => if isInvalidVolumeNotFound e then .done else deletePollLoop rest

/-- `deleteVolumeSynchronously` of the AWS helper file: the `DeleteVolume`
call (`deleteRes`), then one immediate `getVolumeInfo` whose error — any
error — is returned to the caller (`firstQuery`, carrying the volume state
on success), then, unless that state is already `deleted`, the poll loop. -/
def deleteVolumeSynchronously (deleteRes : Option EbsErr)
    (firstQuery : Except EbsErr String)
    (polls : List (Except EbsErr String)) : DeleteOutcome :=
  match deleteRes with
  | some e => .failed e
  | none =>
    match firstQuery with
    | .error e => .failed e
    | .ok state =>
      if state = "deleted" then .done
      else deletePollLoop polls

/-- One `ec2.VolumeAttachment` as the attach path reads it. -/
structure AwsAttachment where
  state : String
deriving DecidableEq

/-- One `ec2.Volume` as the attach poll loop reads it. -/
structure AwsVolume where
  state : String
  attachments : List AwsAttachment
deriving DecidableEq

/-- Result of the `os.Stat(device)` call of one attach poll tick: `ok` when
the device node exists, `notExist` when the error satisfies `os.IsNotExist`,
`otherErr` for any other stat error. -/
inductive StatRes where
  | ok
  | notExist
  | otherErr
deriving DecidableEq

/-- What one iteration of the attach poll loop does. -/
inductive AttachStep where
  | continuePoll (st : String)
  | returned (a : AwsAttachment)
  | panicked
deriving DecidableEq

/-- The body of the poll loop of `attachVolumeSynchronously`, one tick:
`os.Stat(device)` (continue when the node does not exist yet), then
`getVolumeInfo`. The Go code evaluates `len(vol.Attachments)` before
checking the query error; when the query failed, `vol` is the nil pointer
the helper returned alongside the error, and the dereference panics
(`panicked`). `attachmentState` is the loop-carried variable declared
before the loop. -/
def attachPollStep (stat : StatRes) (q : Except EbsErr AwsVolume)
    (attachmentState : String) : AttachStep :=
  match stat with
  | .notExist => .continuePoll attachmentState
  | _ =>
    match q with
    | .error _ => .panicked
    | .ok vol =>
      let st := match vol.attachments with
        | [a] => a.state
        | _ => attachmentState
      if st = "attached" then
        match vol.attachments with
        | a :: _ => .returned a
        | [] => .panicked
      else .continuePoll st

/-- Outcome of `attachVolumeSynchronously`. -/
inductive AttachOutcome where
  | attached (a : AwsAttachment)
  | failed (e : EbsErr)
  | timeout
  | panicked
deriving DecidableEq

/-- The poll loop of `attachVolumeSynchronously`: each entry is one tick's
stat and volume-query result; an exhausted list stands for the absolute
timeout firing. -/
def attachPollLoop : String → List (StatRes × Except EbsErr AwsVolume) → AttachOutcome
  | _, [] => .timeout
  | st, (sr, q) :: rest =>
    match attachPollStep sr q st with
    | .continuePoll st2 => attachPollLoop st2 rest
    | .returned a => .attached a
    | .panicked => .panicked

/-- `attachVolumeSynchronously` of the AWS helper file: the `AttachVolume`
call (`attachRes`), an immediate return when its response already reports
`attached`, else the poll loop with `attachmentState` starting empty. -/
def attachVolumeSynchronously (attachRes : Except EbsErr AwsAttachment)
    (polls : List (StatRes × Except EbsErr AwsVolume)) : AttachOutcome :=
  match attachRes with
  | .error e => .failed e
  | .ok resp =>
    if resp.state = "attached" then .attached resp
    else attachPollLoop "" polls

/-- Result of one `unix.Unmount(volumeDir, 0)` call in `Driver.Unmount`:
nil, `ENOENT`, `EINVAL`, or any other error. -/
inductive UnmountCallRes where
  | ok
  | enoent
  | einval
  | otherErr
deriving DecidableEq

/-- The retry condition of `Driver.Unmount`:
`err != nil && err != unix.ENOENT && err != unix.EINVAL`. -/
def unmountCallFailed : UnmountCallRes → Bool
  | .otherErr => true
  | _ => false

/-- Result of one `os.Remove(volumeDir)` call: nil, an `os.IsNotExist`
error (tolerated), or any other error (re-enters the retry label). -/
inductive RemoveCallRes where
  | ok
  | notExist
  | err
deriving DecidableEq

/-- How a run of the retry region of `Driver.Unmount` ends: reaching the
final synchronized detach and returning nil (`detached`) or the detach error
(`detachFailed`), returning the combined failed-after-3-retries error
(`combined`), or running past the supplied finite trace (`outOfTrace`, which
models an execution that is still looping when the trace ends). -/
inductive UnmountOutcome where
  | detached
  | detachFailed
  | combined
  | outOfTrace
deriving DecidableEq

/-- A run of the retry region of `Driver.Unmount`, instrumented: its outcome,
how many `unix.Unmount` syscalls it made, how many of those failed with a
non-tolerated error, and whether it reached the detach call. -/
structure UnmountStats where
  outcome : UnmountOutcome
  unmountCalls : Nat
  failedUnmountCalls : Nat
  detachAttempted : Bool
deriving DecidableEq

/-- The `retry:` region of `Driver.Unmount` of ebs.go. `retries` is the
counter; while it is below 3 the next `unix.Unmount` result is consumed from
`us`: a non-tolerated failure increments the counter and jumps back to
`retry:`; otherwise the next `os.Remove` result is consumed from `rs`, and a
non-tolerated removal failure jumps back to `retry:` without touching the
counter. Once `retries` reaches 3 the combined error is returned and the
detach is never attempted. `detachOk` is the result of the final
`detachVolumeSynchronously`. -/
def unmountRetryLoop (detachOk : Bool) : Nat → List UnmountCallRes →
    List RemoveCallRes → UnmountStats
  | retries, [], _ =>
    if retries < 3 then ⟨.outOfTrace, 0, 0, false⟩ else ⟨.combined, 0, 0, false⟩
  | retries, u :: us2, rs =>
    if retries < 3 then
      if unmountCallFailed u then
        let s := unmountRetryLoop detachOk (retries + 1) us2 rs
        ⟨s.outcome, s.unmountCalls + 1, s.failedUnmountCalls + 1, s.detachAttempted⟩
      else
        match rs with
        | [] => ⟨.outOfTrace, 1, 0, false⟩
        | r :: rs2 =>
          if r = .err then
            let s := unmountRetryLoop detachOk retries us2 rs2
            ⟨s.outcome, s.unmountCalls + 1, s.failedUnmountCalls, s.detachAttempted⟩
          else
            ⟨if detachOk then .detached else .detachFailed, 1, 0, true⟩
    else ⟨.combined, 0, 0, false⟩

/-- Fuel bound for `templateLoop`: enough iterations to finish whenever the
device path holds no `%` (each iteration strictly shrinks this measure of
the unscanned suffix). -/
def templateMeasure (device l : List Char) : Nat :=
  l.length + device.length * l.count '%'

/-- The `for idx` loop of `templateFSCmd` of ebs.go, over the command as a
character list. `idx` scans left to right; at a `%` with another `%` right
after it the loop consumes both (`idx++; continue` plus the loop increment),
and at a lone `%` it splices the device path in place of the `%`
(`lhs + devicePath + rhs`, the three-way `switch` computing exactly
`fscmd[:idx]` and `fscmd[idx+1:]`) and rescans from the next position. The
Go loop does not terminate for some device paths containing `%`, so the
embedding is fueled; `none` means the fuel ran out. -/
def templateLoop (device : List Char) : Nat → Nat → List Char → Option (List Char)
  | 0, _, _ => none
  | fuel + 1, idx, fscmd =>
    match fscmd.drop idx with
    | [] => some fscmd
    | c :: rest =>
      if c = '%' then
        if rest.head? = some '%' then templateLoop device fuel (idx + 2) fscmd
        else templateLoop device fuel (idx + 1) (fscmd.take idx ++ device ++ fscmd.drop (idx + 1))
      else templateLoop device fuel (idx + 1) fscmd

/-- `templateFSCmd` of ebs.go, with fuel sufficient for every device path
free of `%` (the templater's contract). -/
def templateFSCmd (fscmd device : String) : Option String :=
  (templateLoop device.toList (templateMeasure device.toList fscmd.toList + 1) 0
      fscmd.toList).map (fun l => String.mk l)

/-- One left-to-right scan describing what `templateFSCmd` computes when the
device path holds no `%`: a lone `%` becomes the device path, a doubled `%%`
is passed through unchanged (both characters kept — the escape branch of the
source skips the pair without rewriting it), every other character is
copied. -/
def templateScan (device : List Char) : List Char → List Char
  | [] => []
  | c :: rest =>
    if c = '%' then
      match rest with
      | [] => device
      | r :: rest2 =>
        if r = '%' then '%' :: '%' :: templateScan device rest2
        else device ++ templateScan device (r :: rest2)
    else c :: templateScan device rest

/-- `strings.SplitN(s, "/", 2)` as `internalName` uses it: the part before
the first slash and the rest, or `none` when there is no slash (one part). -/
def splitFirstSlash : List Char → Option (List Char × List Char)
  | [] => none
  | c :: rest =>
    if c = '/' then some ([], rest)
    else
      match splitFirstSlash rest with
      | none => none
      | some (a, b) => some (c :: a, b)

/-- `Driver.internalName` of ebs.go, over character lists: split
`policy/volume` at the first slash, reject a one-part name, a policy
containing `.`, and a volume part containing `/`, and join the two parts
with `.`. -/
def internalName (s : List Char) : Except EbsErr (List Char) :=
  match splitFirstSlash s with
  | none => .error .invalidVolumeNameTwoParts
  | some (policy, volume) =>
    if '.' ∈ policy then .error .invalidPolicyNameDot
    else if '/' ∈ volume then .error .invalidVolumeNameSlash
    else .ok (policy ++ '.' :: volume)

/-- Modelled from the spec: Go's `filepath.Join(base, comp)` for a slash-free
component `comp` cleans the joined path, so a `""` or `"."` component yields
the base itself and any other component yields `base/comp`. (A `".."`
component would yield the base's parent, but `mkMountPath` rejects every
such component before using the joined path, so that branch is left as the
uncleaned concatenation.) -/
def joinOfComponent (base comp : List Char) : List Char :=
  if comp = [] ∨ comp = ['.'] then base else base ++ '/' :: comp

/-- Modelled from the spec: Go's `filepath.Rel(base, filepath.Join(base,
comp))` for a slash-free component recovers `"."` for a `""` or `"."`
component and the component itself otherwise. -/
def relOfComponent (comp : List Char) : List Char :=
  if comp = [] ∨ comp = ['.'] then ['.'] else comp

/-- `strings.Contains(rel, "..")`: whether two consecutive dots occur. -/
def hasDotDot : List Char → Bool
  | '.' :: '.' :: _ => true
  | _ :: rest => hasDotDot rest
  | [] => false

/-- `Driver.mkMountPath` of ebs.go: join the configured mount path with the
internal name, recover the relative path, and reject it when it contains
`..` (the subdir-jail check); otherwise return the joined path. -/
def mkMountPath (mountpath intName : List Char) : Except EbsErr (List Char) :=
  let volumePath := joinOfComponent mountpath intName
  if hasDotDot (relOfComponent intName) then .error .mountFailed
  else .ok volumePath

/-- `Driver.MountPath` of ebs.go: `internalName` then `mkMountPath`, a pure
computation from the driver's configured mount path and the volume name. -/
def MountPath (mountpath s : List Char) : Except EbsErr (List Char) :=
  match internalName s with
  | .error e => .error e
  | .ok intName => mkMountPath mountpath intName

/-! ### Helper lemmas -/

theorem deletePollLoop_done_iff (polls : List (Except EbsErr String)) :
    deletePollLoop polls = .done ↔ ∃ x ∈ polls, isNotFoundRes x = true := by
  induction polls with
  | nil => simp [deletePollLoop]
  | cons q rest ih =>
    cases q with
    | ok st => simp [deletePollLoop, isNotFoundRes, ih]
    | error e =>
      by_cases h : isInvalidVolumeNotFound e
      · simp [deletePollLoop, h, isNotFoundRes]
      · simp [deletePollLoop, h, isNotFoundRes, ih]

theorem deletePollLoop_timeout_iff (polls : List (Except EbsErr String)) :
    deletePollLoop polls = .timeout ↔ ∀ x ∈ polls, isNotFoundRes x = false := by
  induction polls with
  | nil => simp [deletePollLoop]
  | cons q rest ih =>
    cases q with
    | ok st => simp [deletePollLoop, isNotFoundRes, ih]
    | error e =>
      by_cases h : isInvalidVolumeNotFound e
      · simp [deletePollLoop, h, isNotFoundRes]
      · simp [deletePollLoop, h, isNotFoundRes, ih]

theorem unmountRetryLoop_failed_le (detachOk : Bool) :
    ∀ us retries rs, retries ≤ 3 →
      (unmountRetryLoop detachOk retries us rs).failedUnmountCalls + retries ≤ 3 := by
  intro us
  induction us with
  | nil =>
    intro retries rs h
    by_cases hr : retries < 3 <;> simp [unmountRetryLoop, hr] <;> omega
  | cons u us2 ih =>
    intro retries rs h
    by_cases hr : retries < 3
    · by_cases hu : unmountCallFailed u
      · have hrec := ih (retries + 1) rs (by omega)
        simp [unmountRetryLoop, hr, hu]
        omega
      · cases rs with
        | nil => simp [unmountRetryLoop, hr, hu]; omega
        | cons r rs2 =>
          by_cases hre : r = RemoveCallRes.err
          · have hrec := ih retries rs2 h
            simp [unmountRetryLoop, hr, hu, hre]
            omega
          · simp [unmountRetryLoop, hr, hu, hre]; omega
    · simp [unmountRetryLoop, hr]; omega

theorem unmountRetryLoop_combined_no_detach (detachOk : Bool) :
    ∀ us retries rs, (unmountRetryLoop detachOk retries us rs).outcome = .combined →
      (unmountRetryLoop detachOk retries us rs).detachAttempted = false := by
  intro us
  induction us with
  | nil =>
    intro retries rs
    by_cases hr : retries < 3 <;> simp [unmountRetryLoop, hr]
  | cons u us2 ih =>
    intro retries rs
    by_cases hr : retries < 3
    · by_cases hu : unmountCallFailed u
      · simp only [unmountRetryLoop, if_pos hr, if_pos hu]
        exact ih (retries + 1) rs
      · cases rs with
        | nil => simp [unmountRetryLoop, hr, hu]
        | cons r rs2 =>
          by_cases hre : r = RemoveCallRes.err
          · simp only [unmountRetryLoop, if_pos hr, hu, Bool.false_eq_true, if_false,
              if_pos hre]
            exact ih retries rs2
          · simp [unmountRetryLoop, hr, hu, hre]
            cases detachOk <;> simp
    · simp [unmountRetryLoop, hr]

theorem ebsExists_iff (store : List TagDescription) (name : String) :
    ebsExists store name = true ↔
      name ∈ (store.take 6).map TagDescription.value := by
  simp [ebsExists, ebsList, getVolumesWithFilters, describeTagsPage, describeTagsMaxResults]

theorem findFreeFrom_eq_find (mappings : List String) (cs : List Char) :
    findFreeFrom mappings cs =
      ((cs.map (fun c => xvdPrefix.push c)).find? (fun d => ! mappings.contains d)).elim
        (Except.error .noFreeDevice) Except.ok := by
  induction cs with
  | nil => rfl
  | cons c cs ih =>
    simp only [findFreeFrom, List.map_cons, List.find?_cons]
    by_cases h : mappings.contains (xvdPrefix.push c) = true
    · rw [if_pos h, h]
      simp only [Bool.not_true]
      exact ih
    · have h2 : mappings.contains (xvdPrefix.push c) = false := by
        cases hb : mappings.contains (xvdPrefix.push c)
        · rfl
        · exact absurd hb h
      rw [if_neg, h2]
      · simp only [Bool.not_false]
        rfl
      · rw [h2]; exact Bool.false_ne_true

theorem templateScan_cons_ne (device : List Char) (c : Char) (rest : List Char)
    (hc : ¬ c = '%') : templateScan device (c :: rest) = c :: templateScan device rest := by
  cases rest with
  | nil => simp [templateScan, hc]
  | cons r rest2 => simp [templateScan, hc]

theorem templateScan_pct_pct (device rest : List Char) :
    templateScan device ('%' :: '%' :: rest) = '%' :: '%' :: templateScan device rest := rfl

theorem templateScan_pct_single (device rest : List Char) (h : ¬ rest.head? = some '%') :
    templateScan device ('%' :: rest) = device ++ templateScan device rest := by
  cases rest with
  | nil => simp [templateScan]
  | cons r rest2 =>
    have hr : ¬ r = '%' := by
      intro hr
      exact h (by simp [hr])
    simp [templateScan, hr]

theorem templateScan_append_noPct (device : List Char) :
    ∀ pre l, ¬ '%' ∈ pre → templateScan device (pre ++ l) = pre ++ templateScan device l := by
  intro pre
  induction pre with
  | nil => intro l _; rfl
  | cons c pre ih =>
    intro l hp
    have hc : ¬ c = '%' := fun hc => hp (by simp [hc])
    have hp2 : ¬ '%' ∈ pre := fun hm => hp (by simp [hm])
    rw [List.cons_append, templateScan_cons_ne device c _ hc, ih l hp2, List.cons_append]

theorem templateMeasure_cons_ne (device : List Char) (c : Char) (rest : List Char)
    (hc : ¬ c = '%') : templateMeasure device rest < templateMeasure device (c :: rest) := by
  have h : (c :: rest).count '%' = rest.count '%' :=
    List.count_cons_of_ne (fun h => hc h.symm) rest
  simp only [templateMeasure, h, List.length_cons]
  omega

theorem templateMeasure_escape (device rest : List Char) :
    templateMeasure device rest < templateMeasure device ('%' :: '%' :: rest) := by
  have h : ('%' :: '%' :: rest).count '%' = rest.count '%' + 2 := by
    rw [List.count_cons_self, List.count_cons_self]
  simp only [templateMeasure, h, List.length_cons]
  have h2 : device.length * (rest.count '%' + 2) =
      device.length * rest.count '%' + 2 * device.length := by ring
  omega

theorem templateMeasure_subst (device rest : List Char) (hdev : ¬ '%' ∈ device) :
    templateMeasure device (List.drop 1 (device ++ rest)) <
      templateMeasure device ('%' :: rest) := by
  have h1 : (List.drop 1 (device ++ rest)).count '%' ≤ (device ++ rest).count '%' :=
    (List.drop_sublist 1 (device ++ rest)).count_le '%'
  have h2 : (device ++ rest).count '%' = rest.count '%' := by
    rw [List.count_append, List.count_eq_zero_of_not_mem hdev, Nat.zero_add]
  have h3 : ('%' :: rest).count '%' = rest.count '%' + 1 := List.count_cons_self '%' rest
  have h4 : (List.drop 1 (device ++ rest)).length = device.length + rest.length - 1 := by
    simp [List.length_drop]
  have h5 : device.length * (List.drop 1 (device ++ rest)).count '%' ≤
      device.length * rest.count '%' := Nat.mul_le_mul_left device.length (by omega)
  have h6 : device.length * (rest.count '%' + 1) =
      device.length * rest.count '%' + device.length := by ring
  simp only [templateMeasure, h3, h4, List.length_cons]
  omega

theorem templateScan_step (device rest : List Char) (hdev : ¬ '%' ∈ device)
    (hr : ¬ rest.head? = some '%') :
    (device ++ rest).take 1 ++ templateScan device ((device ++ rest).drop 1) =
      device ++ templateScan device rest := by
  cases device with
  | nil =>
    cases rest with
    | nil => rfl
    | cons r rest2 =>
      have hrne : ¬ r = '%' := by
        intro h
        exact hr (by simp [h])
      simp only [List.nil_append, List.take_succ_cons, List.take_zero, List.drop_succ_cons,
        List.drop_zero]
      rw [templateScan_cons_ne _ r rest2 hrne]
      simp
  | cons d ds =>
    have hds : ¬ '%' ∈ ds := fun hm => hdev (by simp [hm])
    simp only [List.cons_append, List.take_succ_cons, List.take_zero, List.drop_succ_cons,
      List.drop_zero]
    rw [templateScan_append_noPct (d :: ds) ds rest hds]
    simp

theorem templateLoop_correct (device : List Char) (hdev : ¬ '%' ∈ device) :
    ∀ fuel idx fscmd, templateMeasure device (fscmd.drop idx) < fuel →
      templateLoop device fuel idx fscmd =
        some (fscmd.take idx ++ templateScan device (fscmd.drop idx)) := by
  intro fuel
  induction fuel with
  | zero =>
    intro idx fscmd h
    exact absurd h (Nat.not_lt_zero _)
  | succ fuel ih =>
    intro idx fscmd h
    have hmeas : templateMeasure device (fscmd.drop idx) ≤ fuel := by omega
    cases hd : fscmd.drop idx with
    | nil =>
      have hlen : fscmd.length ≤ idx := List.drop_eq_nil_iff.mp hd
      simp only [templateLoop, hd]
      rw [List.take_of_length_le hlen]
      simp [templateScan]
    | cons c rest =>
      have hidx : idx < fscmd.length := by
        have := congrArg List.length hd
        simp [List.length_drop] at this
        omega
      have hdropsucc : fscmd.drop (idx + 1) = rest := by
        rw [← List.drop_drop, hd]
        rfl
      have htakesucc : fscmd.take (idx + 1) = fscmd.take idx ++ [c] := by
        rw [List.take_add, hd]
        rfl
      rw [hd] at hmeas
      simp only [templateLoop, hd]
      by_cases hc : c = '%'
      · rw [if_pos hc]
        by_cases hr : rest.head? = some '%'
        · rw [if_pos hr]
          obtain ⟨rest2, hrest⟩ : ∃ rest2, rest = '%' :: rest2 := by
            cases rest with
            | nil => simp at hr
            | cons r rest2 =>
              simp at hr
              exact ⟨rest2, by rw [hr]⟩
          subst hrest
          subst hc
          have hdrop2 : fscmd.drop (idx + 2) = rest2 := by
            rw [← List.drop_drop, hd]
            rfl
          have htake2 : fscmd.take (idx + 2) = fscmd.take idx ++ ['%', '%'] := by
            rw [List.take_add, hd]
            rfl
          have hm2 : templateMeasure device (fscmd.drop (idx + 2)) < fuel := by
            rw [hdrop2]
            have := templateMeasure_escape device rest2
            omega
          rw [ih (idx + 2) fscmd hm2, hdrop2, htake2, templateScan_pct_pct]
          simp
        · rw [if_neg hr]
          subst hc
          set fscmd2 := fscmd.take idx ++ device ++ fscmd.drop (idx + 1) with hfscmd2
          have htl : (fscmd.take idx).length = idx := by
            rw [List.length_take]
            omega
          have hassoc : fscmd2 = fscmd.take idx ++ (device ++ rest) := by
            rw [hfscmd2, hdropsucc, List.append_assoc]
          have hdrop2 : fscmd2.drop idx = device ++ rest := by
            rw [hassoc]
            exact List.drop_left' htl
          have hdrop3 : fscmd2.drop (idx + 1) = (device ++ rest).drop 1 := by
            rw [← List.drop_drop, hdrop2]
          have htake3 : fscmd2.take (idx + 1) = fscmd.take idx ++ (device ++ rest).take 1 := by
            rw [List.take_add, hdrop2, hassoc]
            congr 1
            exact List.take_left' htl
          have hm2 : templateMeasure device (fscmd2.drop (idx + 1)) < fuel := by
            rw [hdrop3]
            have := templateMeasure_subst device rest hdev
            omega
          rw [ih (idx + 1) fscmd2 hm2, hdrop3, htake3, templateScan_pct_single device rest hr,
            List.append_assoc, templateScan_step device rest hdev hr]
      · rw [if_neg hc]
        have hm2 : templateMeasure device (fscmd.drop (idx + 1)) < fuel := by
          rw [hdropsucc]
          have := templateMeasure_cons_ne device c rest hc
          omega
        rw [ih (idx + 1) fscmd hm2, hdropsucc, htakesucc, templateScan_cons_ne device c rest hc]
        simp

theorem templateFSCmd_eq_scan (fscmd device : String) (hdev : ¬ '%' ∈ device.toList) :
    templateFSCmd fscmd device =
      some (String.mk (templateScan device.toList fscmd.toList)) := by
  rw [templateFSCmd,
    templateLoop_correct device.toList hdev
      (templateMeasure device.toList fscmd.toList + 1) 0 fscmd.toList
      (by simp)]
  simp

theorem splitFirstSlash_none_iff (s : List Char) :
    splitFirstSlash s = none ↔ ¬ '/' ∈ s := by
  induction s with
  | nil => simp [splitFirstSlash]
  | cons c rest ih =>
    by_cases h : c = '/'
    · subst h
      simp [splitFirstSlash]
    · rw [splitFirstSlash, if_neg h]
      cases hs : splitFirstSlash rest with
      | none =>
        simp only [List.mem_cons]
        constructor
        · intro _ hc
          rcases hc with hc | hc
          · exact h hc.symm
          · exact (ih.mp hs) hc
        · intro _
          trivial
      | some p =>
        simp only [List.mem_cons]
        constructor
        · intro hcontra
          exact absurd hcontra (by simp)
        · intro hno
          exfalso
          apply hno
          right
          by_contra hnr
          rw [ih.mpr hnr] at hs
          cases hs

theorem splitFirstSlash_append (p v : List Char) (hp : ¬ '/' ∈ p) :
    splitFirstSlash (p ++ '/' :: v) = some (p, v) := by
  induction p with
  | nil => simp [splitFirstSlash]
  | cons c p ih =>
    have hc : ¬ c = '/' := fun hc => hp (by simp [hc])
    have hp2 : ¬ '/' ∈ p := fun hm => hp (by simp [hm])
    rw [List.cons_append, splitFirstSlash, if_neg hc, ih hp2]

/-! ### Claim theorems -/

/-- Claim C1, counterexample: an execution in which the delete call succeeds
and the very next status query — the one `deleteVolumeSynchronously` makes
before entering its poll loop — fails with the AWS `InvalidVolume.NotFound`
error. The claim says every such execution returns success; the function
returns the NotFound error instead. -/
theorem delete_initial_notfound_returned :
    deleteVolumeSynchronously none (.error (.aws "InvalidVolume.NotFound")) [] =
      .failed (.aws "InvalidVolume.NotFound") ∧
    ¬ deleteVolumeSynchronously none (.error (.aws "InvalidVolume.NotFound")) [] = .done := by
  decide

/-- Claim C1, amended: once the poll loop has been entered (delete call
succeeded, initial status query succeeded with a not-yet-deleted state), a
poll-tick status query failing with the AWS code `InvalidVolume.NotFound` is
treated as success — the run returns nil exactly when some tick's query so
fails — every other tick outcome (successful query, or any other error) is
transient and the poll continues until timeout; the status query made
immediately after the delete call, before the loop, instead propagates any
error, NotFound included. -/
theorem delete_polling_notfound_success (st : String) (hst : st ≠ "deleted")
    (polls : List (Except EbsErr String)) :
    (deleteVolumeSynchronously none (.ok st) polls = .done ↔
      ∃ x ∈ polls, isNotFoundRes x = true) ∧
    (deleteVolumeSynchronously none (.ok st) polls = .timeout ↔
      ∀ x ∈ polls, isNotFoundRes x = false) ∧
    (∀ e, deleteVolumeSynchronously none (.error e) polls = .failed e) := by
  have hloop : deleteVolumeSynchronously none (.ok st) polls = deletePollLoop polls := by
    simp [deleteVolumeSynchronously, hst]
  exact ⟨by rw [hloop]; exact deletePollLoop_done_iff polls,
    by rw [hloop]; exact deletePollLoop_timeout_iff polls,
    fun e => rfl⟩

/-- Claim C1, witness: the amended theorem at a concrete run — state
`available` after the delete call, then one transient error tick and one
NotFound tick. -/
theorem delete_polling_notfound_success_witness :
    (deleteVolumeSynchronously none (.ok "available")
        [.error .generic, .error (.aws "InvalidVolume.NotFound")] = .done ↔
      ∃ x ∈ [Except.error EbsErr.generic,
          Except.error (EbsErr.aws "InvalidVolume.NotFound")], isNotFoundRes x = true) ∧
    (deleteVolumeSynchronously none (.ok "available")
        [.error .generic, .error (.aws "InvalidVolume.NotFound")] = .timeout ↔
      ∀ x ∈ [Except.error EbsErr.generic,
          Except.error (EbsErr.aws "InvalidVolume.NotFound")], isNotFoundRes x = false) ∧
    (∀ e, deleteVolumeSynchronously none (.error e)
        [.error .generic, .error (.aws "InvalidVolume.NotFound")] = .failed e) :=
  delete_polling_notfound_success "available" (by decide)
    [.error .generic, .error (.aws "InvalidVolume.NotFound")]

/-- Claim C3, counterexample: a run of the unmount retry region in which
every `unix.Unmount` call succeeds but the first three `os.Remove` calls
fail: the `goto retry` after the failed removal re-runs the unmount without
incrementing the counter, so the syscall is attempted 4 times — the claim's
bound of at most 3 attempts is violated — and the run still ends in a
successful detach. -/
theorem unmount_four_attempts :
    (unmountRetryLoop true 0 [.ok, .ok, .ok, .ok] [.err, .err, .err, .ok]).unmountCalls = 4 ∧
    (unmountRetryLoop true 0 [.ok, .ok, .ok, .ok] [.err, .err, .err, .ok]).outcome =
      .detached := by
  decide

/-- Claim C3, amended: the retry counter bounds the failing unmount attempts,
not all unmount attempts — starting from `retries` (at most 3), at most
`3 - retries` calls of `unix.Unmount` fail with a non-tolerated error;
once the counter reaches 3 the combined error is returned and the detach is
never attempted; `ENOENT` and `EINVAL` results are tolerated exactly like
success, and a tolerated unmount followed by a clean removal proceeds to the
detach, returning nil when it succeeds. A failing directory removal re-enters
the retry path without incrementing the counter, so the total number of
unmount syscalls is not bounded. -/
theorem unmount_bounded_failing_retries (detachOk : Bool) (retries : Nat)
    (us : List UnmountCallRes) (rs : List RemoveCallRes) (h : retries ≤ 3) :
    (unmountRetryLoop detachOk retries us rs).failedUnmountCalls + retries ≤ 3 ∧
    ((unmountRetryLoop detachOk retries us rs).outcome = .combined →
      (unmountRetryLoop detachOk retries us rs).detachAttempted = false) ∧
    unmountRetryLoop detachOk retries (.enoent :: us) rs =
      unmountRetryLoop detachOk retries (.ok :: us) rs ∧
    unmountRetryLoop detachOk retries (.einval :: us) rs =
      unmountRetryLoop detachOk retries (.ok :: us) rs ∧
    (retries < 3 → ∀ u, unmountCallFailed u = false →
      (unmountRetryLoop true retries (u :: us) (.ok :: rs)).outcome = .detached) := by
  refine ⟨unmountRetryLoop_failed_le detachOk us retries rs h,
    unmountRetryLoop_combined_no_detach detachOk us retries rs, ?_, ?_, ?_⟩
  · by_cases hr : retries < 3 <;> simp [unmountRetryLoop, hr, unmountCallFailed]
  · by_cases hr : retries < 3 <;> simp [unmountRetryLoop, hr, unmountCallFailed]
  · intro hr u hu
    simp [unmountRetryLoop, hr, hu]

/-- Claim C3, witness: the amended theorem at a concrete run — one failing
unmount, then a tolerated one, a clean removal and a successful detach. -/
theorem unmount_bounded_failing_retries_witness :
    (unmountRetryLoop true 0 [.otherErr, .enoent] [.ok]).failedUnmountCalls + 0 ≤ 3 ∧
    ((unmountRetryLoop true 0 [.otherErr, .enoent] [.ok]).outcome = .combined →
      (unmountRetryLoop true 0 [.otherErr, .enoent] [.ok]).detachAttempted = false) ∧
    unmountRetryLoop true 0 (.enoent :: [.otherErr, .enoent]) [.ok] =
      unmountRetryLoop true 0 (.ok :: [.otherErr, .enoent]) [.ok] ∧
    unmountRetryLoop true 0 (.einval :: [.otherErr, .enoent]) [.ok] =
      unmountRetryLoop true 0 (.ok :: [.otherErr, .enoent]) [.ok] ∧
    (0 < 3 → ∀ u, unmountCallFailed u = false →
      (unmountRetryLoop true 0 (u :: [.otherErr, .enoent]) (.ok :: [.ok])).outcome =
        .detached) :=
  unmount_bounded_failing_retries true 0 [.otherErr, .enoent] [.ok] (by decide)

/-- Claim C4: evaluating the attach poll loop at the failing input. In a poll
tick where `os.Stat(device)` succeeds and `getVolumeInfo` fails, the source
evaluates `len(vol.Attachments)` on the nil volume pointer returned with the
error and panics, instead of swallowing the error and continuing as the
claim (and the sibling create/detach/delete loops, which test `err == nil`
first) prescribe; a tick whose stat reports the device as not yet existing
does continue the poll. -/
theorem attach_poll_query_error_dereferences_nil :
    attachVolumeSynchronously (.ok ⟨"attaching"⟩) [(.ok, .error .generic)] = .panicked ∧
    attachVolumeSynchronously (.ok ⟨"attaching"⟩) [(.notExist, .error .generic)] =
      .timeout := by
  decide

/-- Claim C5: a size below one gigabyte or not a whole-gigabyte multiple
(zero included) fails validation, and both `Create` and `Validate` return
exactly that error with no remote operation issued; a whole-gigabyte size of
at least 1 GiB validates to `size / 2^30`. -/
theorem create_validate_reject_bad_size (size : Nat) (env : CreateEnv) (region : String) :
    (size < gigabyteAsBytes ∨ size % gigabyteAsBytes ≠ 0 →
      ∃ e, getVolumeSizeInGB size = .error e ∧
        DriverCreate size env = (some e, []) ∧
        DriverValidate none size region = some e) ∧
    (gigabyteAsBytes ≤ size → size % gigabyteAsBytes = 0 →
      getVolumeSizeInGB size = .ok (size / gigabyteAsBytes)) := by
  constructor
  · intro h
    by_cases h1 : size < gigabyteAsBytes
    · exact ⟨.minSize, by simp [getVolumeSizeInGB, h1],
        by simp [DriverCreate, getVolumeSizeInGB, h1],
        by simp [DriverValidate, getVolumeSizeInGB, h1]⟩
    · have h2 : size % gigabyteAsBytes ≠ 0 := by
        rcases h with h | h
        · exact absurd h h1
        · exact h
      exact ⟨.wholeGigabytes, by simp [getVolumeSizeInGB, h1, h2],
        by simp [DriverCreate, getVolumeSizeInGB, h1, h2],
        by simp [DriverValidate, getVolumeSizeInGB, h1, h2]⟩
  · intro h1 h2
    simp [getVolumeSizeInGB, Nat.not_lt.mpr h1, h2]

/-- Claim C6: the device allocator scans `/dev/xvda` through `/dev/xvdy` —
25 candidates — in order, returns the first path absent from the supplied
mappings (so never an occupied one), and fails with the no-free-device error
exactly when all 25 candidates are occupied. -/
theorem device_allocation_first_free (mappings : List String) :
    ebsDeviceCandidates.length = 25 ∧
    findFreeBlockDevice mappings =
      (ebsDeviceCandidates.find? (fun d => ! mappings.contains d)).elim
        (Except.error .noFreeDevice) Except.ok ∧
    (∀ d, findFreeBlockDevice mappings = Except.ok d → ¬ d ∈ mappings) ∧
    (findFreeBlockDevice mappings = Except.error .noFreeDevice ↔
      ∀ d ∈ ebsDeviceCandidates, d ∈ mappings) := by
  have heq : findFreeBlockDevice mappings =
      (ebsDeviceCandidates.find? (fun d => ! mappings.contains d)).elim
        (Except.error .noFreeDevice) Except.ok :=
    findFreeFrom_eq_find mappings deviceLetters
  refine ⟨by decide, heq, ?_, ?_⟩
  · intro d hd
    rw [heq] at hd
    cases hf : (ebsDeviceCandidates.find? (fun d => ! mappings.contains d)) with
    | none => rw [hf] at hd; simp [Option.elim] at hd
    | some x =>
      rw [hf] at hd
      simp [Option.elim] at hd
      have hp := List.find?_some hf
      rw [hd] at hp
      simp at hp
      exact hp
  · rw [heq]
    cases hf : (ebsDeviceCandidates.find? (fun d => ! mappings.contains d)) with
    | none =>
      simp [Option.elim]
      rw [List.find?_eq_none] at hf
      intro d hd
      have := hf d hd
      simpa using this
    | some x =>
      simp [Option.elim]
      have hp := List.find?_some hf
      have hmem := List.mem_of_find?_eq_some hf
      exact ⟨x, hmem, by simpa using hp⟩

/-- Claim C7: identity resolution by name returns the single matching tag's
resource id when the query yields exactly one match, and fails loudly — with
the expected-one-response error carrying the match count — on zero matches
(the NotFound case) and on two or more matches (the ambiguous case), never
silently picking one. -/
theorem identity_resolution_one_match (tags : List TagDescription) :
    (∀ t, tags = [t] → getVolumeWithName (.ok tags) = .ok t.resourceId) ∧
    (tags = [] → getVolumeWithName (.ok tags) = .error (.expectedOneResponse 0)) ∧
    (2 ≤ tags.length → getVolumeWithName (.ok tags) =
      .error (.expectedOneResponse tags.length)) := by
  refine ⟨?_, ?_, ?_⟩
  · rintro t rfl
    rfl
  · rintro rfl
    rfl
  · intro h
    have h1 : ¬ tags.length = 1 := by omega
    simp [getVolumeWithName, getVolumeWithTag, h1]

/-- Claim C9: every tag-listing query carries `MaxResults = 6`, so `List`
returns at most 6 names and `Exists` decides membership within the first
page of at most 6 tag descriptions: a tagged volume beyond that page (whose
name is not also in the page) is reported as not existing. -/
theorem list_exists_first_page (store : List TagDescription) (name : String) :
    describeTagsMaxResults = 6 ∧
    (ebsList store).length ≤ 6 ∧
    (ebsExists store name = true ↔ name ∈ (store.take 6).map TagDescription.value) ∧
    (∀ td, td ∈ store.drop 6 → ¬ td.value ∈ (store.take 6).map TagDescription.value →
      ebsExists store td.value = false) := by
  refine ⟨rfl, ?_, ebsExists_iff store name, ?_⟩
  · simp only [ebsList, getVolumesWithFilters, describeTagsPage, describeTagsMaxResults,
      List.length_map, List.length_take]
    exact Nat.min_le_left 6 store.length
  · intro td _ hnot
    have := ebsExists_iff store td.value
    rcases hb : ebsExists store td.value with _ | _
    · rfl
    · exact absurd (this.mp hb) hnot

/-- Claim C10: when the mkfs command succeeds, `Format` returns nil whatever
the final detach returned — the detach result never influences the returned
error (it is only logged) — so a nil `Format` does not guarantee the volume
was detached. -/
theorem format_detach_error_only_logged (iid vol dev : String) (maps : List String)
    (det : Except EbsErr Unit) (hfree : findFreeBlockDevice maps = .ok dev) :
    DriverFormat (.ok iid) (.ok vol) (.ok maps) (.ok ()) none det = none ∧
    (∀ a b c d e det1 det2, DriverFormat a b c d e det1 = DriverFormat a b c d e det2) := by
  refine ⟨?_, fun a b c d e det1 det2 => rfl⟩
  simp [DriverFormat, hfree]

/-- Claim C10, witness: a concrete run with every step succeeding and the
detach failing still returns nil. -/
theorem format_detach_error_only_logged_witness :
    DriverFormat (.ok "i-0") (.ok "vol-1") (.ok []) (.ok ()) none (.error .generic) = none ∧
    (∀ a b c d e det1 det2, DriverFormat a b c d e det1 = DriverFormat a b c d e det2) :=
  format_detach_error_only_logged "i-0" "vol-1" "/dev/xvda" [] (.error .generic) (by decide)

/-- Claim C8, counterexample: the name `a/.b` is well-formed in the claim's
sense — policy `a` holds no `.`, volume `.b` holds no `/` — yet `MountPath`
does not return the mount path joined with `a..b`: the internal name
contains `..`, so the subdir-jail check of `mkMountPath` rejects it. -/
theorem mountPath_rejects_dotdot :
    MountPath ("/mnt/ebs").toList ("a/.b").toList = .error .mountFailed ∧
    ¬ MountPath ("/mnt/ebs").toList ("a/.b").toList = .ok (("/mnt/ebs/a..b").toList) := by
  decide

/-- Claim C8, amended: `MountPath` is a pure function of the mount path and
the volume name (the embedding takes nothing else); for every name
`policy/volume` with `policy` free of `.` and `/` and `volume` free of `/`,
whose internal form `policy.volume` does not contain `..`, it returns the
mount path joined with `policy.volume`; a name without `/`, a policy
containing `.`, a volume containing `/`, and an internal form containing
`..` (the jail check) each yield the corresponding error. -/
theorem mountPath_characterization (mountpath p v s : List Char) :
    ((¬ '/' ∈ p) → (¬ '.' ∈ p) → (¬ '/' ∈ v) → hasDotDot (p ++ '.' :: v) = false →
      MountPath mountpath (p ++ '/' :: v) = .ok (joinOfComponent mountpath (p ++ '.' :: v))) ∧
    ((¬ '/' ∈ s) → MountPath mountpath s = .error .invalidVolumeNameTwoParts) ∧
    ((¬ '/' ∈ p) → ('.' ∈ p) → MountPath mountpath (p ++ '/' :: v) =
      .error .invalidPolicyNameDot) ∧
    ((¬ '/' ∈ p) → (¬ '.' ∈ p) → ('/' ∈ v) → MountPath mountpath (p ++ '/' :: v) =
      .error .invalidVolumeNameSlash) ∧
    ((¬ '/' ∈ p) → (¬ '.' ∈ p) → (¬ '/' ∈ v) → hasDotDot (p ++ '.' :: v) = true →
      MountPath mountpath (p ++ '/' :: v) = .error .mountFailed) := by
  refine ⟨?_, ?_, ?_, ?_, ?_⟩
  · intro hp hpd hv hdd
    have hrel : hasDotDot (relOfComponent (p ++ '.' :: v)) = false := by
      rw [relOfComponent]
      by_cases hi : (p ++ '.' :: v = [] ∨ p ++ '.' :: v = ['.'])
      · rw [if_pos hi]
        rfl
      · rw [if_neg hi]
        exact hdd
    simp only [MountPath, internalName, splitFirstSlash_append p v hp, if_neg hpd, if_neg hv]
    simp only [mkMountPath, hrel]
    simp
  · intro hs
    simp [MountPath, internalName, (splitFirstSlash_none_iff s).mpr hs]
  · intro hp hpd
    simp [MountPath, internalName, splitFirstSlash_append p v hp, hpd]
  · intro hp hpd hv
    simp [MountPath, internalName, splitFirstSlash_append p v hp, hpd, hv]
  · intro hp hpd hv hdd
    have hrel : hasDotDot (relOfComponent (p ++ '.' :: v)) = true := by
      rw [relOfComponent]
      by_cases hi : (p ++ '.' :: v = [] ∨ p ++ '.' :: v = ['.'])
      · exfalso
        rcases hi with hi | hi
        · exact absurd hi (by simp)
        · rw [hi] at hdd
          simp [hasDotDot] at hdd
      · rw [if_neg hi]
        exact hdd
    simp only [MountPath, internalName, splitFirstSlash_append p v hp, if_neg hpd, if_neg hv]
    simp only [mkMountPath, hrel]
    simp

/-- Claim C2, counterexample: a doubled `%%` is not collapsed to a single
literal `%` — the escape branch of the loop skips the pair but leaves both
characters in place — so template `echo %% %` with device `/dev/xvdb` yields
`echo %% /dev/xvdb`, not the `echo % /dev/xvdb` the claim states. -/
theorem templater_double_percent_kept :
    templateFSCmd "echo %% %" "/dev/xvdb" = some "echo %% /dev/xvdb" ∧
    ¬ templateFSCmd "echo %% %" "/dev/xvdb" = some "echo % /dev/xvdb" := by
  decide

/-- Claim C2, amended: for every template and every device path containing no
`%`, the templater replaces every lone `%` with the device path, scanning
left to right and consuming a lookahead character on escape, but passes a
doubled `%%` through unchanged (two literal `%` characters, not one):
`mkfs.ext4 -m0 %` with `/dev/xvdb` yields `mkfs.ext4 -m0 /dev/xvdb`,
`echo %% %` yields `echo %% /dev/xvdb`, and `%%%` yields the two literal
`%` characters followed by one substituted device path. -/
theorem templater_amended (fscmd device : String) (hdev : ¬ '%' ∈ device.toList) :
    templateFSCmd fscmd device =
      some (String.mk (templateScan device.toList fscmd.toList)) ∧
    templateFSCmd "mkfs.ext4 -m0 %" "/dev/xvdb" = some "mkfs.ext4 -m0 /dev/xvdb" ∧
    templateFSCmd "echo %% %" "/dev/xvdb" = some "echo %% /dev/xvdb" ∧
    templateFSCmd "%%%" "/dev/xvdb" = some "%%/dev/xvdb" :=
  ⟨templateFSCmd_eq_scan fscmd device hdev, by decide, by decide, by decide⟩

/-- Claim C2, witness: the amended theorem at template `a % b` and device
`/dev/x`. -/
theorem templater_amended_witness :
    templateFSCmd "a % b" "/dev/x" =
      some (String.mk (templateScan ("/dev/x").toList ("a % b").toList)) ∧
    templateFSCmd "mkfs.ext4 -m0 %" "/dev/xvdb" = some "mkfs.ext4 -m0 /dev/xvdb" ∧
    templateFSCmd "echo %% %" "/dev/xvdb" = some "echo %% /dev/xvdb" ∧
    templateFSCmd "%%%" "/dev/xvdb" = some "%%/dev/xvdb" :=
  templater_amended "a % b" "/dev/x" (by decide)
